import Mathlib

/-!
Shallow embedding of the `whale` chess core (src/whale/src/chess_parts.rs and
src/whale/src/chess_engine.rs): mailbox coordinate mapping, piece/color codec,
movement tables, FEN board construction, and pseudolegal/legal move generation.

Rust `panic!`/`unwrap` failures are modelled as `Except` errors (or `Option.none`
for the fallible decoders); machine integers are modelled as `Nat`/`Int`.
-/

namespace Whale

instance {ε α : Type} [DecidableEq ε] [DecidableEq α] : DecidableEq (Except ε α) := fun x y =>
  match x, y with
  | .ok a, .ok b =>
    if h : a = b then .isTrue (by rw [h]) else .isFalse (fun h2 => h (Except.ok.inj h2))
  | .error a, .error b =>
    if h : a = b then .isTrue (by rw [h]) else .isFalse (fun h2 => h (Except.error.inj h2))
  | .ok _, .error _ => .isFalse (fun h2 => Except.noConfusion h2)
  | .error _, .ok _ => .isFalse (fun h2 => Except.noConfusion h2)

/-- `Piece` enum from chess_parts.rs, `#[repr(u8)]` with `Pawn = 1`. -/
inductive Piece
  | Pawn | Bishop | Rook | Knight | Queen | King
deriving DecidableEq

/-- The `u8` discriminant of a `Piece` (`Pawn = 1`, ..., `King = 6`). -/
def Piece.toU8 : Piece → Nat
  | .Pawn => 1
  | .Bishop => 2
  | .Rook => 3
  | .Knight => 4
  | .Queen => 5
  | .King => 6

/-- `TryFrom<u8> for Piece`: `Err` is modelled as `none`. -/
def Piece.tryFrom (value : Nat) : Option Piece :=
  if value = 1 then some .Pawn
  else if value = 2 then some .Bishop
  else if value = 3 then some .Rook
  else if value = 4 then some .Knight
  else if value = 5 then some .Queen
  else if value = 6 then some .King
  else none

/-- `Color` enum from chess_parts.rs, `Black = 0`, `White = 1`. -/
inductive Color
  | Black | White
deriving DecidableEq

/-- The `u8` discriminant of a `Color`. -/
def Color.toU8 : Color → Nat
  | .Black => 0
  | .White => 1

/-- `TryFrom<u8> for Color`. -/
def Color.tryFrom (value : Nat) : Option Color :=
  if value = 0 then some .Black
  else if value = 1 then some .White
  else none

/-- `new_piece`: `((piece as u8) << 1) | (color as u8)`. -/
def new_piece (piece : Piece) (color : Color) : Nat :=
  (piece.toU8 <<< 1) ||| color.toU8

/-- `piece_from_u8`: unpacks a cell byte; the Rust code `unwrap`s both
`try_into` results, so an undecodable byte (piece bits 0 or > 6) is a panic,
modelled as `none`.  The color bits (`input & 1`) always decode. -/
def piece_from_u8 (input : Nat) : Option (Piece × Color) :=
  match Piece.tryFrom (input >>> 1), Color.tryFrom (input &&& 1) with
  | some piece, some color => some (piece, color)
  | _, _ => none

/-- `MOVESETS`: the process-wide table from (piece, color) to
(direction vectors, is-sliding).  The Rust `HashMap` is populated for every
(piece, color) pair before use, so `get(..).unwrap()` is total; we model it as
a total function.  Values transcribed from chess_parts.rs lines 54-67. -/
def MOVESETS : Piece → Color → (List (Int × Int) × Bool)
  | .Pawn, .White => ([(0, -1), (0, -2), (1, -1), (-1, -1)], false)
  | .Pawn, .Black => ([(0, 1), (0, 2), (1, 1), (-1, 1)], false)
  | .Knight, _ => ([(1, 2), (2, 1), (2, -1), (1, -2), (-1, -2), (-2, -1), (-2, 1), (-1, 2)], false)
  | .Bishop, _ => ([(1, 1), (1, -1), (-1, -1), (-1, 1)], true)
  | .Rook, _ => ([(0, 1), (1, 0), (0, -1), (-1, 0)], true)
  | .Queen, _ => ([(0, 1), (1, 0), (0, -1), (-1, 0), (1, 1), (1, -1), (-1, -1), (-1, 1)], true)
  | .King, _ => ([(0, 1), (1, 0), (0, -1), (-1, 0), (1, 1), (1, -1), (-1, -1), (-1, 1)], false)

/-- `MAILBOX120`: padded 10x12 table; `-1` marks border cells, other entries are
the corresponding 0-63 square. -/
def MAILBOX120 : List Int := [
  -1, -1, -1, -1, -1, -1, -1, -1, -1, -1,
  -1, -1, -1, -1, -1, -1, -1, -1, -1, -1,
  -1,  0,  1,  2,  3,  4,  5,  6,  7, -1,
  -1,  8,  9, 10, 11, 12, 13, 14, 15, -1,
  -1, 16, 17, 18, 19, 20, 21, 22, 23, -1,
  -1, 24, 25, 26, 27, 28, 29, 30, 31, -1,
  -1, 32, 33, 34, 35, 36, 37, 38, 39, -1,
  -1, 40, 41, 42, 43, 44, 45, 46, 47, -1,
  -1, 48, 49, 50, 51, 52, 53, 54, 55, -1,
  -1, 56, 57, 58, 59, 60, 61, 62, 63, -1,
  -1, -1, -1, -1, -1, -1, -1, -1, -1, -1,
  -1, -1, -1, -1, -1, -1, -1, -1, -1, -1]

/-- `MAILBOX64`: maps each 0-63 square to its padded 0-119 index. -/
def MAILBOX64 : List Nat := [
  21, 22, 23, 24, 25, 26, 27, 28,
  31, 32, 33, 34, 35, 36, 37, 38,
  41, 42, 43, 44, 45, 46, 47, 48,
  51, 52, 53, 54, 55, 56, 57, 58,
  61, 62, 63, 64, 65, 66, 67, 68,
  71, 72, 73, 74, 75, 76, 77, 78,
  81, 82, 83, 84, 85, 86, 87, 88,
  91, 92, 93, 94, 95, 96, 97, 98]

/-- `From<Mailbox64Index> for Mailbox120Index`: `MAILBOX64[value.0]`
(a table lookup; the index is a valid square in every use site). -/
def to_mailbox120 (value : Nat) : Nat := MAILBOX64.getD value 0

/-- `From<Mailbox120Index> for Mailbox64Index` as written in the source:
`MAILBOX120.iter().position(|&x| x == value.0 as i8).unwrap()` — it searches
MAILBOX120 for an element EQUAL TO the padded value and returns that element's
position; `unwrap` of a failed search is a panic, modelled as `.error ()`. -/
def from_mailbox120 (value : Nat) : Except Unit Nat :=
  match MAILBOX120.findIdx? (fun x => x = (value : Int)) with
  | some idx => .ok idx
  | none => .error ()

/-- `offset_index`: padded-space offset arithmetic.  The out-of-table branch is
the Rust `panic!("Invalid Mailbox64 index")`, modelled as `.error ()`; a border
landing returns `ok none`; otherwise the new square.  The Rust locals
`abs_index` and `new_index` are inlined. -/
def offset_index (index : Nat) (offset : Int) : Except Unit (Option Nat) :=
  if ((MAILBOX64.getD index 0 : Int) + offset) < 0 ∨
      120 ≤ ((MAILBOX64.getD index 0 : Int) + offset) then .error ()
  else if MAILBOX120.getD ((MAILBOX64.getD index 0 : Int) + offset).toNat (-1) = -1 then
    .ok none
  else .ok (some (MAILBOX120.getD ((MAILBOX64.getD index 0 : Int) + offset).toNat (-1)).toNat)

/-- `offset_index_2d`: rejects deltas outside [-2,2] (returns `None`), else
`offset_index` with `file_offset + rank_offset * 10`. -/
def offset_index_2d (index : Nat) (file_offset rank_offset : Int) : Except Unit (Option Nat) :=
  if file_offset < -2 ∨ 2 < file_offset ∨ rank_offset < -2 ∨ 2 < rank_offset then .ok none
  else offset_index index (file_offset + rank_offset * 10)

/-- `offset_ray`: repeatedly applies `offset_index`, collecting results until
the first off-board step or `length` steps. -/
def offset_ray (index : Nat) (offset : Int) : Nat → Except Unit (List Nat)
  | 0 => .ok []
  | n + 1 =>
    match offset_index index offset with
    | .error e => .error e
    | .ok none => .ok []
    | .ok (some new_index) =>
      match offset_ray new_index offset n with
      | .error e => .error e
      | .ok rest => .ok (new_index :: rest)

/-- `offset_ray_2d`: rejects deltas outside [-2,2] (returns an empty vec), else
`offset_ray` with the combined padded offset. -/
def offset_ray_2d (index : Nat) (file_offset rank_offset : Int) (length : Nat) :
    Except Unit (List Nat) :=
  if file_offset < -2 ∨ 2 < file_offset ∨ rank_offset < -2 ∨ 2 < rank_offset then .ok []
  else offset_ray index (file_offset + rank_offset * 10) length

/-- The distinct panic sites of `Board::new` (and of the algebraic-square
conversion it calls), each carrying the offending field or character as the
Rust format string does. -/
inductive FenError
  | wrongFieldCount (n : Nat)
  | invalidTurn (field : List Char)
  | invalidCastlingChar (c : Char)
  | invalidHalfmoveClock
  | invalidFullmoveClock
  | invalidPieceChar (c : Char)
  | invalidRow (rank : List Char) (got : Nat)
  | invalidSquareString
  | cellIndexOutOfRange
deriving DecidableEq

/-- Splits a character list at every character satisfying `p`, keeping empty
chunks — the semantics of Rust `str::split`. -/
def split_pred (p : Char → Bool) : List Char → List (List Char)
  | [] => [[]]
  | c :: rest =>
    let r := split_pred p rest
    if p c then [] :: r
    else
      match r with
      | [] => [[c]]
      | g :: gs => (c :: g) :: gs

/-- Rust `str::split_whitespace`: split at whitespace runs, no empty chunks. -/
def split_whitespace (cs : List Char) : List (List Char) :=
  (split_pred Char.isWhitespace cs).filter (fun w => w ≠ [])

/-- Numeric value of a digit string (helper for integer parsing). -/
def digits_val (cs : List Char) : Nat :=
  cs.foldl (fun a c => a * 10 + (c.toNat - 48)) 0

/-- Rust unsigned `from_str`: an optional leading `+`, then one or more
ASCII digits; anything else is a parse error (`none`). -/
def parse_uint (cs : List Char) : Option Nat :=
  let cs2 := match cs with
    | '+' :: rest => rest
    | other => other
  if cs2 = [] then none
  else if cs2.all Char.isDigit then some (digits_val cs2)
  else none

/-- `str::parse::<u8>`: as `parse_uint`, and values above `u8::MAX` overflow
into a parse error. -/
def parse_u8 (cs : List Char) : Option Nat :=
  match parse_uint cs with
  | some v => if v ≤ 255 then some v else none
  | none => none

/-- `From<&str> for Mailbox64Index`: `file = chars[0] - 'a'`,
`rank = chars[1] - '1'`, result `file + rank * 8`, all in wrapping `u8`
arithmetic; fewer than two characters panics (`.error`). -/
def square_from_chars : List Char → Except FenError Nat
  | c0 :: c1 :: _ =>
    .ok (((c0.toNat % 256 + 256 - 97) % 256 + ((c1.toNat % 256 + 256 - 49) % 256) * 8) % 256)
  | _ => .error .invalidSquareString

/-- The `Board` struct: 64 cells, side to move, the four castling flags
(White kingside, White queenside, Black kingside, Black queenside),
en-passant target, halfmove clock, fullmove clock. -/
structure Board where
  cells : List Nat
  turn : Color
  castling_availability : List Bool
  en_passant_target_square : Option Nat
  halfmove_clock : Nat
  fullmove_clock : Nat
deriving DecidableEq

/-- The castling-availability loop of `Board::new`: sets one of the four
flags per `KQkq` character, ignores `-`, panics on anything else. -/
def castling_fold (flags : List Bool) : List Char → Except FenError (List Bool)
  | [] => .ok flags
  | c :: rest =>
    if c = 'K' then castling_fold (flags.set 0 true) rest
    else if c = 'Q' then castling_fold (flags.set 1 true) rest
    else if c = 'k' then castling_fold (flags.set 2 true) rest
    else if c = 'q' then castling_fold (flags.set 3 true) rest
    else if c = '-' then castling_fold flags rest
    else .error (.invalidCastlingChar c)

/-- The piece-letter match of the rank loop in `Board::new`. -/
def piece_char (c : Char) : Except FenError Nat :=
  if c = 'P' then .ok (new_piece .Pawn .White)
  else if c = 'N' then .ok (new_piece .Knight .White)
  else if c = 'B' then .ok (new_piece .Bishop .White)
  else if c = 'R' then .ok (new_piece .Rook .White)
  else if c = 'Q' then .ok (new_piece .Queen .White)
  else if c = 'K' then .ok (new_piece .King .White)
  else if c = 'p' then .ok (new_piece .Pawn .Black)
  else if c = 'n' then .ok (new_piece .Knight .Black)
  else if c = 'b' then .ok (new_piece .Bishop .Black)
  else if c = 'r' then .ok (new_piece .Rook .Black)
  else if c = 'q' then .ok (new_piece .Queen .Black)
  else if c = 'k' then .ok (new_piece .King .Black)
  else .error (.invalidPieceChar c)

/-- Inner character loop of one FEN rank: digits advance the file counter,
piece letters write `cells[row_idx * 8 + file]`; writing past the 64-cell
array is the Rust index-out-of-bounds panic. -/
def place_rank_chars (cells : List Nat) (row_idx : Nat) (file : Nat) :
    List Char → Except FenError (List Nat × Nat)
  | [] => .ok (cells, file)
  | c :: rest =>
    if c.isDigit then place_rank_chars cells row_idx (file + (c.toNat - 48)) rest
    else
      match piece_char c with
      | .error e => .error e
      | .ok piece =>
        if row_idx * 8 + file < 64 then
          place_rank_chars (cells.set (row_idx * 8 + file) piece) row_idx (file + 1) rest
        else .error .cellIndexOutOfRange

/-- Outer rank loop of `Board::new`: processes each `/`-separated rank in
order and panics if a rank's files do not sum to exactly 8.  There is no
check on the NUMBER of ranks. -/
def place_ranks (cells : List Nat) (row_idx : Nat) :
    List (List Char) → Except FenError (List Nat)
  | [] => .ok cells
  | rank :: rest =>
    match place_rank_chars cells row_idx 0 rank with
    | .error e => .error e
    | .ok (cells2, file) =>
      if file = 8 then place_ranks cells2 (row_idx + 1) rest
      else .error (.invalidRow rank file)

/-- `Board::new`: FEN parsing, with each `panic!` site mapped to the
corresponding `FenError`.  Field checks follow the source order: field count,
turn, en-passant square, halfmove clock, fullmove clock, then the castling
character loop, then the rank loop. -/
def Board.new (fen : String) : Except FenError Board :=
  let parts := split_whitespace fen.toList
  if parts.length ≠ 6 then .error (.wrongFieldCount parts.length)
  else
    let turnE : Except FenError Color :=
      if parts.getD 1 [] = [ 'w' ] then .ok .White
      else if parts.getD 1 [] = [ 'b' ] then .ok .Black
      else .error (.invalidTurn (parts.getD 1 []))
    match turnE with
    | .error e => .error e
    | .ok turn =>
      let epE : Except FenError (Option Nat) :=
        if parts.getD 3 [] = [ '-' ] then .ok none
        else
          match square_from_chars (parts.getD 3 []) with
          | .error e => .error e
          | .ok sq => .ok (some sq)
      match epE with
      | .error e => .error e
      | .ok ep =>
        match parse_u8 (parts.getD 4 []) with
        | none => .error .invalidHalfmoveClock
        | some halfmove =>
          match parse_uint (parts.getD 5 []) with
          | none => .error .invalidFullmoveClock
          | some fullmove =>
            match castling_fold [false, false, false, false] (parts.getD 2 []) with
            | .error e => .error e
            | .ok castling =>
              match place_ranks (List.replicate 64 0) 0
                  (split_pred (fun c => c = '/') (parts.getD 0 [])) with
              | .error e => .error e
              | .ok cells =>
                .ok { cells := cells, turn := turn, castling_availability := castling,
                      en_passant_target_square := ep, halfmove_clock := halfmove,
                      fullmove_clock := fullmove }

/-- `Board::default`: the standard starting position. -/
def Board.default : Except FenError Board :=
  Board.new "rnbqkbnr/pppppppp/8/8/8/8/PPPPPPPP/RNBQKBNR w KQkq - 0 1"

/-- `board.cells[i]`.  Every access performed by the generators below is at a
proven in-range index (the queried square and the generated targets, all
below 64), so `getD` coincides with the Rust panicking index. -/
def Board.cell (b : Board) (i : Nat) : Nat := b.cells.getD i 0

/-- The direction loop of `generate_pseudolegal`: an up-to-7-step ray for
sliding movesets, a single `offset_index_2d` step otherwise.  (The source
text passes `board` as a spurious extra argument to `offset_ray_2d`, whose
signature takes none; rays never consult the board.) -/
def gen_moves (index : Nat) (dirs : List (Int × Int)) (sliding : Bool) :
    Except Unit (List Nat) :=
  match dirs with
  | [] => .ok []
  | (dx, dy) :: rest =>
    let step : Except Unit (List Nat) :=
      if sliding then offset_ray_2d index dx dy 7
      else
        match offset_index_2d index dx dy with
        | .error e => .error e
        | .ok none => .ok []
        | .ok (some target) => .ok [target]
    match step with
    | .error e => .error e
    | .ok here =>
      match gen_moves index rest sliding with
      | .error e => .error e
      | .ok later => .ok (here ++ later)

/-- `generate_pseudolegal`: decodes the occupant of `index` (panicking on an
empty or undecodable cell), then walks its moveset. -/
def generate_pseudolegal (b : Board) (index : Nat) : Except Unit (List Nat) :=
  match piece_from_u8 (b.cell index) with
  | none => .error ()
  | some (piece, color) =>
    let moveset := MOVESETS piece color
    gen_moves index moveset.1 moveset.2

/-- The candidate loop of `generate_legal`: skips a target occupied by the
mover's color, keeps everything else; decoding an occupied target panics if
its byte is undecodable. -/
def legal_filter (b : Board) (color : Color) : List Nat → Except Unit (List Nat)
  | [] => .ok []
  | t :: rest =>
    if b.cell t ≠ 0 then
      match piece_from_u8 (b.cell t) with
      | none => .error ()
      | some (_, target_color) =>
        if target_color = color then legal_filter b color rest
        else
          match legal_filter b color rest with
          | .error e => .error e
          | .ok l => .ok (t :: l)
    else
      match legal_filter b color rest with
      | .error e => .error e
      | .ok l => .ok (t :: l)

/-- `generate_legal`: pseudolegal moves minus own-color captures — and no
other filtering (no check safety, castling or en-passant conditions). -/
def generate_legal (b : Board) (index : Nat) : Except Unit (List Nat) :=
  match generate_pseudolegal b index with
  | .error e => .error e
  | .ok pseudolegal =>
    match piece_from_u8 (b.cell index) with
    | none => .error ()
    | some (_, color) => legal_filter b color pseudolegal

/-- An otherwise-empty board with a White rook on square 0 (the corner cell the
spec calls a1). -/
def rookBoard : Board :=
  { cells := (List.replicate 64 0).set 0 (new_piece .Rook .White),
    turn := .White, castling_availability := [false, false, false, false],
    en_passant_target_square := none, halfmove_clock := 0, fullmove_clock := 1 }

/-- A board with a White knight on square 0, a Black pawn on square 17 (in the
knight's capture path) and a White pawn on square 10 (the knight's other
pseudolegal target). -/
def knightBoard : Board :=
  { cells := (((List.replicate 64 0).set 0 (new_piece .Knight .White)).set 17
      (new_piece .Pawn .Black)).set 10 (new_piece .Pawn .White),
    turn := .White, castling_availability := [false, false, false, false],
    en_passant_target_square := none, halfmove_clock := 0, fullmove_clock := 1 }

/- ------------------------------------------------------------------ -/
/- Helper lemmas                                                       -/
/- ------------------------------------------------------------------ -/

/-- Every in-range `MAILBOX120` entry is `-1` or a square in `[0, 64)`. -/
theorem mailbox120_getD_cases : ∀ a : Nat, a < 120 →
    MAILBOX120.getD a (-1) = -1 ∨
      (0 ≤ MAILBOX120.getD a (-1) ∧ MAILBOX120.getD a (-1) < 64) := by decide

/-- A successful `offset_index` step lands on a square below 64. -/
theorem offset_index_lt (i : Nat) (o : Int) (j : Nat)
    (h : offset_index i o = .ok (some j)) : j < 64 := by
  unfold offset_index at h
  split at h
  · exact Except.noConfusion h
  · rename_i hrange
    split at h
    · exact Option.noConfusion (Except.ok.inj h)
    · rename_i hne
      have hj : (MAILBOX120.getD ((MAILBOX64.getD i 0 : Int) + o).toNat (-1)).toNat = j :=
        Option.some.inj (Except.ok.inj h)
      have hb : ((MAILBOX64.getD i 0 : Int) + o).toNat < 120 := by omega
      rcases mailbox120_getD_cases _ hb with h1 | h1
      · exact absurd h1 hne
      · omega

/-- A successful `offset_index_2d` step lands on a square below 64. -/
theorem offset_index_2d_lt (i : Nat) (dx dy : Int) (j : Nat)
    (h : offset_index_2d i dx dy = .ok (some j)) : j < 64 := by
  unfold offset_index_2d at h
  split at h
  · exact Option.noConfusion (Except.ok.inj h)
  · exact offset_index_lt _ _ _ h

/-- Every square produced by `offset_ray` is below 64. -/
theorem offset_ray_lt (n : Nat) : ∀ (i : Nat) (o : Int) (l : List Nat),
    offset_ray i o n = .ok l → ∀ t ∈ l, t < 64 := by
  induction n with
  | zero =>
    intro i o l h t ht
    simp only [offset_ray] at h
    have h2 := Except.ok.inj h
    subst h2
    exact absurd ht (List.not_mem_nil t)
  | succ n ih =>
    intro i o l h t ht
    simp only [offset_ray] at h
    split at h
    · exact Except.noConfusion h
    · have h2 := Except.ok.inj h
      subst h2
      exact absurd ht (List.not_mem_nil t)
    · rename_i new_index hstep
      split at h
      · exact Except.noConfusion h
      · rename_i rest hrest
        have h2 := Except.ok.inj h
        subst h2
        rcases List.mem_cons.mp ht with rfl | hm
        · exact offset_index_lt _ _ _ hstep
        · exact ih _ _ _ hrest t hm

/-- Every square produced by `offset_ray_2d` is below 64. -/
theorem offset_ray_2d_lt (i : Nat) (dx dy : Int) (n : Nat) (l : List Nat)
    (h : offset_ray_2d i dx dy n = .ok l) : ∀ t ∈ l, t < 64 := by
  unfold offset_ray_2d at h
  split at h
  · have h2 := Except.ok.inj h
    subst h2
    intro t ht
    exact absurd ht (List.not_mem_nil t)
  · exact offset_ray_lt _ _ _ _ h

/-- Every square produced by the direction loop is below 64. -/
theorem gen_moves_lt (index : Nat) (sliding : Bool) :
    ∀ (dirs : List (Int × Int)) (l : List Nat),
    gen_moves index dirs sliding = .ok l → ∀ t ∈ l, t < 64 := by
  intro dirs
  induction dirs with
  | nil =>
    intro l h t ht
    simp only [gen_moves] at h
    have h2 := Except.ok.inj h
    subst h2
    exact absurd ht (List.not_mem_nil t)
  | cons d rest ih =>
    obtain ⟨dx, dy⟩ := d
    intro l h t ht
    simp only [gen_moves] at h
    split at h
    · exact Except.noConfusion h
    · rename_i here hhere
      split at h
      · exact Except.noConfusion h
      · rename_i later hlater
        have h2 := Except.ok.inj h
        subst h2
        have hhere_lt : ∀ u ∈ here, u < 64 := by
          split at hhere
          · exact offset_ray_2d_lt _ _ _ _ _ hhere
          · split at hhere
            · exact Except.noConfusion hhere
            · have h3 := Except.ok.inj hhere
              subst h3
              intro u hu
              exact absurd hu (List.not_mem_nil u)
            · rename_i target htarget
              have h3 := Except.ok.inj hhere
              subst h3
              intro u hu
              rcases List.mem_singleton.mp hu with rfl
              exact offset_index_2d_lt _ _ _ _ htarget
        rcases List.mem_append.mp ht with hm | hm
        · exact hhere_lt t hm
        · exact ih _ hlater t hm

/-- `generate_pseudolegal` on a decodable occupant reduces to the direction
loop over the occupant's moveset. -/
theorem generate_pseudolegal_eq (b : Board) (idx : Nat) (p : Piece) (c : Color)
    (hocc : piece_from_u8 (b.cell idx) = some (p, c)) :
    generate_pseudolegal b idx = gen_moves idx (MOVESETS p c).1 (MOVESETS p c).2 := by
  unfold generate_pseudolegal
  rw [hocc]

/- ------------------------------------------------------------------ -/
/- Claim theorems                                                      -/
/- ------------------------------------------------------------------ -/

/-- C1: the claim says `fromPadded` inverts `toPadded` on the 64 squares and
fails on border cells.  The code instead searches MAILBOX120 for an element
equal to the padded value, so `fromPadded(toPadded(0)) = fromPadded(21) = 46`
(the padded index of square 21), border cell 0 maps to 21 instead of failing,
and the valid padded position 64 (= `toPadded(35)`) panics. -/
theorem C1_from_padded_not_inverse :
    from_mailbox120 (to_mailbox120 0) = .ok 46 ∧ (46 : Nat) ≠ 0 ∧
    MAILBOX120.getD 0 (-1) = -1 ∧ from_mailbox120 0 = .ok 21 ∧
    to_mailbox120 35 = 64 ∧ from_mailbox120 64 = .error () := by decide

/-- C2: the round trip `toPadded(fromPadded(toPadded(s)))` gives 77 instead of
21 at square 0, and panics at square 63 (`fromPadded(98)` finds no element 98
in MAILBOX120). -/
theorem C2_roundtrip_unstable :
    (from_mailbox120 (to_mailbox120 0)).map to_mailbox120 = .ok 77 ∧
    to_mailbox120 0 = 21 ∧ (77 : Nat) ≠ 21 ∧
    (from_mailbox120 (to_mailbox120 63)).map to_mailbox120 = .error () := by decide

/-- C3 counterexample: square 0 with file and rank offsets both `-2` (each
inside `[-2, 2]`) computes padded index `21 - 22 = -1` and reaches the fatal
out-of-table branch of `offset_index`. -/
theorem C3_counterexample : offset_index_2d 0 (-2) (-2) = .error () := by decide

/-- C3 amended: for every square and offsets in `[-2, 2]`, the fatal branch is
unreachable EXCEPT at the two extreme corner combinations — square 0 with
offsets `(-2, -2)` (padded index `-1`) and square 63 with offsets `(2, 2)`
(padded index `120`). -/
theorem C3_no_panic_amended (s : Nat) (hs : s < 64) (dx dy : Int)
    (hdx1 : -2 ≤ dx) (hdx2 : dx ≤ 2) (hdy1 : -2 ≤ dy) (hdy2 : dy ≤ 2)
    (hc1 : ¬(s = 0 ∧ dx = -2 ∧ dy = -2)) (hc2 : ¬(s = 63 ∧ dx = 2 ∧ dy = 2)) :
    offset_index_2d s dx dy ≠ .error () := by
  interval_cases dx <;> interval_cases dy <;>
    first
      | (clear hc1 hc2; revert s; decide)
      | (have hs0 : ¬(s = 0) := fun h0 => hc1 ⟨h0, rfl, rfl⟩
         clear hc1 hc2; revert s; decide)
      | (have hs63 : ¬(s = 63) := fun h0 => hc2 ⟨h0, rfl, rfl⟩
         clear hc1 hc2; revert s; decide)

/-- C3 witness: the amended theorem applied at square 5 with offsets (2, 2). -/
theorem C3_no_panic_amended_witness : offset_index_2d 5 2 2 ≠ .error () :=
  C3_no_panic_amended 5 (by decide) 2 2 (by decide) (by decide) (by decide)
    (by decide) (by decide) (by decide)

/-- C4: on any board whose square 0 holds a White rook, `generate_pseudolegal`
yields exactly 7 squares along the file ray (direction `(0, 1)`), exactly 7
along the rank ray (direction `(1, 0)`), and none along the two rays that
leave the board immediately (`(0, -1)` and `(-1, 0)`). -/
theorem C4_rook_corner_rays (b : Board) (h : b.cell 0 = new_piece .Rook .White) :
    generate_pseudolegal b 0 = .ok [8, 16, 24, 32, 40, 48, 56, 1, 2, 3, 4, 5, 6, 7] ∧
    offset_ray_2d 0 0 1 7 = .ok [8, 16, 24, 32, 40, 48, 56] ∧
    (offset_ray_2d 0 0 1 7).map List.length = .ok 7 ∧
    offset_ray_2d 0 1 0 7 = .ok [1, 2, 3, 4, 5, 6, 7] ∧
    (offset_ray_2d 0 1 0 7).map List.length = .ok 7 ∧
    offset_ray_2d 0 0 (-1) 7 = .ok [] ∧
    offset_ray_2d 0 (-1) 0 7 = .ok [] := by
  refine ⟨?_, by decide, by decide, by decide, by decide, by decide, by decide⟩
  unfold generate_pseudolegal
  rw [h]
  decide

/-- C4 witness: the theorem applied to the concrete one-rook board. -/
theorem C4_rook_corner_rays_witness :
    generate_pseudolegal rookBoard 0 = .ok [8, 16, 24, 32, 40, 48, 56, 1, 2, 3, 4, 5, 6, 7] :=
  (C4_rook_corner_rays rookBoard (by decide)).1

/-- Membership in a successful `legal_filter` run: a candidate survives exactly
when its destination cell is empty or holds a piece of the other color. -/
theorem legal_filter_mem (b : Board) (c : Color) :
    ∀ (pl l : List Nat), legal_filter b c pl = .ok l →
    ∀ t : Nat, t ∈ l ↔ t ∈ pl ∧ (b.cell t = 0 ∨
      ∃ q tc, piece_from_u8 (b.cell t) = some (q, tc) ∧ tc ≠ c) := by
  intro pl
  induction pl with
  | nil =>
    intro l h t
    simp only [legal_filter] at h
    have h2 := Except.ok.inj h
    subst h2
    simp
  | cons a rest ih =>
    intro l h t
    simp only [legal_filter] at h
    split at h
    · rename_i ha
      split at h
      · exact Except.noConfusion h
      · rename_i q tc hdec
        split at h
        · rename_i htc
          rw [ih l h t]
          constructor
          · rintro ⟨hm, hk⟩
            exact ⟨List.mem_cons_of_mem a hm, hk⟩
          · rintro ⟨hm, hk⟩
            rcases List.mem_cons.mp hm with rfl | hm2
            · rcases hk with h0 | ⟨q2, tc2, hdec2, hne⟩
              · exact absurd h0 ha
              · rw [hdec] at hdec2
                simp only [Option.some.injEq, Prod.mk.injEq] at hdec2
                exact absurd (by rw [← hdec2.2]; exact htc) hne
            · exact ⟨hm2, hk⟩
        · rename_i htc
          split at h
          · exact Except.noConfusion h
          · rename_i l2 hl2
            have h2 := Except.ok.inj h
            subst h2
            constructor
            · intro hm
              rcases List.mem_cons.mp hm with rfl | hm2
              · exact ⟨List.mem_cons.mpr (Or.inl rfl), .inr ⟨q, tc, hdec, htc⟩⟩
              · have h3 := (ih l2 hl2 t).mp hm2
                exact ⟨List.mem_cons_of_mem a h3.1, h3.2⟩
            · rintro ⟨hm, hk⟩
              rcases List.mem_cons.mp hm with rfl | hm2
              · exact List.mem_cons.mpr (Or.inl rfl)
              · exact List.mem_cons_of_mem a ((ih l2 hl2 t).mpr ⟨hm2, hk⟩)
    · rename_i ha
      split at h
      · exact Except.noConfusion h
      · rename_i l2 hl2
        have h2 := Except.ok.inj h
        subst h2
        have ha0 : b.cell a = 0 := not_not.mp ha
        constructor
        · intro hm
          rcases List.mem_cons.mp hm with rfl | hm2
          · exact ⟨List.mem_cons.mpr (Or.inl rfl), .inl ha0⟩
          · have h3 := (ih l2 hl2 t).mp hm2
            exact ⟨List.mem_cons_of_mem a h3.1, h3.2⟩
        · rintro ⟨hm, hk⟩
          rcases List.mem_cons.mp hm with rfl | hm2
          · exact List.mem_cons.mpr (Or.inl rfl)
          · exact List.mem_cons_of_mem a ((ih l2 hl2 t).mpr ⟨hm2, hk⟩)

/-- C5: for any board and occupied square, a destination is in `legalMoves`
exactly when it is pseudolegal and its cell is empty or holds the opposite
color — so own-color captures are excluded, opposite-color captures are kept,
and nothing else (check safety, castling, en passant) is filtered. -/
theorem C5_legal_is_own_color_filter (b : Board) (idx : Nat) (p : Piece) (c : Color)
    (pl l : List Nat)
    (hocc : piece_from_u8 (b.cell idx) = some (p, c))
    (hp : generate_pseudolegal b idx = .ok pl)
    (hl : generate_legal b idx = .ok l) :
    ∀ t : Nat, t ∈ l ↔ t ∈ pl ∧ (b.cell t = 0 ∨
      ∃ q tc, piece_from_u8 (b.cell t) = some (q, tc) ∧ tc ≠ c) := by
  have hleg : generate_legal b idx = legal_filter b c pl := by
    unfold generate_legal
    rw [hp, hocc]
  rw [hleg] at hl
  exact legal_filter_mem b c pl l hl

/-- C5 witness: on `knightBoard`, the Black pawn on square 17 is kept (capture
eligible) by the own-color filter. -/
theorem C5_legal_is_own_color_filter_witness :
    (17 : Nat) ∈ ([17] : List Nat) ↔ (17 : Nat) ∈ ([17, 10] : List Nat) ∧
      (knightBoard.cell 17 = 0 ∨
        ∃ q tc, piece_from_u8 (knightBoard.cell 17) = some (q, tc) ∧ tc ≠ Color.White) :=
  C5_legal_is_own_color_filter knightBoard 0 .Knight .White [17, 10] [17]
    (by decide) (by decide) (by decide) 17

/-- C6 counterexample: from the starting position, the e2 pawn (cell 52; e3 is
cell 44, e4 cell 36, d3 cell 43, f3 cell 45) has legal set
`[44, 36, 45, 43]`, not exactly the claimed pair 44 and 36, although both
diagonal target cells are empty. -/
theorem C6_counterexample :
    Board.default.map (fun bd => generate_legal bd 52) = .ok (.ok [44, 36, 45, 43]) ∧
    Board.default.map (fun bd => (bd.cell 43, bd.cell 45)) = .ok (0, 0) ∧
    ¬((45 : Nat) = 44 ∨ (45 : Nat) = 36) ∧ ¬((43 : Nat) = 44 ∨ (43 : Nat) = 36) := by decide

/-- C6 amended: from the starting position the e2 pawn's pseudolegal moves are
e3, e4 and the two diagonal targets d3 and f3; the diagonal targets are empty
and therefore pass the own-color filter, so the legal set is exactly
`[e3, e4, f3, d3]` — the known diagonal-overgeneration gap. -/
theorem C6_e2_pawn_legal :
    Board.default.map (fun bd => bd.cell 52) = .ok (new_piece .Pawn .White) ∧
    Board.default.map (fun bd => generate_pseudolegal bd 52) = .ok (.ok [44, 36, 45, 43]) ∧
    Board.default.map (fun bd => generate_legal bd 52) = .ok (.ok [44, 36, 45, 43]) := by
  decide

/-- C7: every square produced by `generate_pseudolegal` on an occupied square
lies in `[0, 64)`. -/
theorem C7_pseudolegal_in_range (b : Board) (idx : Nat) (p : Piece) (c : Color)
    (l : List Nat)
    (hocc : piece_from_u8 (b.cell idx) = some (p, c))
    (hgen : generate_pseudolegal b idx = .ok l) :
    ∀ t ∈ l, t < 64 := by
  rw [generate_pseudolegal_eq b idx p c hocc] at hgen
  exact gen_moves_lt idx (MOVESETS p c).2 (MOVESETS p c).1 l hgen

/-- C7 witness: the theorem applied to the one-rook board's first generated
square. -/
theorem C7_pseudolegal_in_range_witness :
    (8 : Nat) < 64 ∧ piece_from_u8 (rookBoard.cell 0) = some (.Rook, .White) :=
  ⟨C7_pseudolegal_in_range rookBoard 0 .Rook .White
      [8, 16, 24, 32, 40, 48, 56, 1, 2, 3, 4, 5, 6, 7]
      (by decide) (by decide) 8 (by decide),
    by decide⟩

/-- C8: each malformed-FEN category produces its own identifiable error — and
in particular a 5-field FEN and a 7-file rank produce distinct errors, not a
fallback board. -/
theorem C8_fen_errors :
    Board.new "8/8/8/8/8/8/8/8 w - - 0" = .error (.wrongFieldCount 5) ∧
    Board.new "8/8/8/8/8/8/8/8 x - - 0 1" = .error (.invalidTurn [ 'x' ]) ∧
    Board.new "8/8/8/8/8/8/8/8 w Z - 0 1" = .error (.invalidCastlingChar 'Z') ∧
    Board.new "8/8/8/8/8/8/8/8 w - - zz 1" = .error .invalidHalfmoveClock ∧
    Board.new "8/8/8/8/8/8/8/8 w - - 0 zz" = .error .invalidFullmoveClock ∧
    Board.new "T7/8/8/8/8/8/8/8 w - - 0 1" = .error (.invalidPieceChar 'T') ∧
    Board.new "7/8/8/8/8/8/8/8 w - - 0 1" = .error (.invalidRow [ '7' ] 7) ∧
    FenError.wrongFieldCount 5 ≠ FenError.invalidRow [ '7' ] 7 := by decide

/-- C9: the default board has 16 pawn cells (8 per color), one king per color,
all four castling flags set, no en-passant target, halfmove clock 0 and
fullmove counter 1. -/
theorem C9_default_board :
    Board.default.map (fun bd => (bd.cells.filter (fun cl => cl >>> 1 = Piece.toU8 .Pawn)).length) = .ok 16 ∧
    Board.default.map (fun bd => (bd.cells.filter (fun cl => cl = new_piece .Pawn .White)).length) = .ok 8 ∧
    Board.default.map (fun bd => (bd.cells.filter (fun cl => cl = new_piece .Pawn .Black)).length) = .ok 8 ∧
    Board.default.map (fun bd => (bd.cells.filter (fun cl => cl = new_piece .King .White)).length) = .ok 1 ∧
    Board.default.map (fun bd => (bd.cells.filter (fun cl => cl = new_piece .King .Black)).length) = .ok 1 ∧
    Board.default.map (fun bd => bd.castling_availability) = .ok [true, true, true, true] ∧
    Board.default.map (fun bd => bd.en_passant_target_square) = .ok none ∧
    Board.default.map (fun bd => bd.halfmove_clock) = .ok 0 ∧
    Board.default.map (fun bd => bd.fullmove_clock) = .ok 1 := by decide

/-- C10: a piece-placement field with only 4 ranks is accepted — `Board::new`
never checks the rank count — and every cell the placement does not mention
stays empty. -/
theorem C10_short_placement_accepted :
    (Board.new "8/8/8/8 w - - 0 1").map (fun bd => bd.cells) = .ok (List.replicate 64 0) := by
  decide

end Whale
